import Mathlib

/-!
Formalisation of the data-management core of a single-page inventory
application: filtering, sorting, pagination, CRUD state transitions,
dashboard aggregation and the persistence effect.

Modelling conventions:
* JavaScript numbers are embedded as exact rationals (`ℚ`); where a claim
  is specifically about floating-point exactness, IEEE-754 double-precision
  rounding is modelled explicitly (`roundDouble`).
* `String.prototype.localeCompare` is modelled as code-point lexicographic
  comparison (`charListCmp`), and `String.prototype.toLowerCase` as a
  character-wise lowercase map; the claims proved here do not depend on the
  particular collation.
* The stable `Array.prototype.sort` is modelled by `List.mergeSort`, which
  is a stable sort for the same comparator discipline.
* `Date.now()` and `new Date().toISOString()` are modelled as explicit
  clock parameters passed to the operations that read them.
-/

namespace Inventory

/-- An inventory record, mirroring the `InventoryItem` interface of
`types.ts`: `quantity` and `price` are JavaScript numbers (embedded as
exact rationals), the remaining fields are strings. -/
structure InventoryItem where
  id : String
  name : String
  quantity : ℚ
  price : ℚ
  category : String
  sku : String
  lastUpdated : String
deriving DecidableEq

/-- Creation payload, mirroring `NewInventoryItem = Omit<InventoryItem, 'id' | 'lastUpdated'>`. -/
structure NewInventoryItem where
  name : String
  quantity : ℚ
  price : ℚ
  category : String
  sku : String
deriving DecidableEq

/-- The sortable field names of `InventoryItem` (`keyof InventoryItem`). -/
inductive ItemKey where
  | id | name | quantity | price | category | sku | lastUpdated
deriving DecidableEq

/-- Sort direction, mirroring `'ascending' | 'descending'`. -/
inductive SortDirection where
  | ascending | descending
deriving DecidableEq

/-- Sort configuration, mirroring the `SortConfig` interface: an optional
key (`keyof InventoryItem | null`) and a direction. -/
structure SortConfig where
  key : Option ItemKey
  direction : SortDirection
deriving DecidableEq

/-- A JavaScript value read off an item field at runtime: a number or a
string, as discriminated by the `typeof` checks in the sort comparator. -/
inductive JSValue where
  | num (q : ℚ)
  | str (s : String)
deriving DecidableEq

/-- Dynamic field access `a[sortConfig.key]`. -/
def getField (item : InventoryItem) : ItemKey → JSValue
  | .id => .str item.id
  | .name => .str item.name
  | .quantity => .num item.quantity
  | .price => .num item.price
  | .category => .str item.category
  | .sku => .str item.sku
  | .lastUpdated => .str item.lastUpdated

/-- Lexicographic comparison of character lists by code point, returning
-1, 0 or 1 as a JavaScript number. -/
def charListCmp : List Char → List Char → ℚ
  | [], [] => 0
  | [], _ :: _ => -1
  | _ :: _, [] => 1
  | a :: as, b :: bs =>
    if a.toNat < b.toNat then -1
    else if b.toNat < a.toNat then 1
    else charListCmp as bs

/-- Model of `String.prototype.localeCompare` (the default locale),
abstracted as code-point lexicographic comparison. -/
def localeCompare (s t : String) : ℚ :=
  charListCmp s.data t.data

/-- The body of the sort comparator (part_000 lines 173-179): numeric
subtraction when both values are numbers, `localeCompare` when both are
strings, and 0 (no preference) when the types mix. -/
def compareValues : JSValue → JSValue → ℚ
  | .num a, .num b => a - b
  | .str a, .str b => localeCompare a b
  | _, _ => 0

/-- The full sort comparator (part_000 lines 169-182): compare the two
items' values at the sort key, negating the result for descending order.
It is a total function: no input raises an error. -/
def itemCompare (key : ItemKey) (direction : SortDirection)
    (a b : InventoryItem) : ℚ :=
  let comparison := compareValues (getField a key) (getField b key)
  match direction with
  | .ascending => comparison
  | .descending => -comparison

/-- The boolean "less or equal" induced by the comparator, as consumed by a
stable comparison sort. -/
def itemLE (key : ItemKey) (direction : SortDirection)
    (a b : InventoryItem) : Bool :=
  decide (itemCompare key direction a b ≤ 0)

/-- Character-wise lowercase map, modelling `String.prototype.toLowerCase`. -/
def toLowerStr (s : String) : String :=
  ⟨s.data.map Char.toLower⟩

/-- Matching of a needle at the head of a haystack (both as character
lists). -/
def leadEq : List Char → List Char → Bool
  | [], _ => true
  | _ :: _, [] => false
  | a :: as, b :: bs => a == b && leadEq as bs

/-- Substring containment on character lists, modelling
`String.prototype.includes`. -/
def containsSub (needle : List Char) : List Char → Bool
  | [] => needle.isEmpty
  | c :: t => leadEq needle (c :: t) || containsSub needle t

/-- Model of `hay.includes(needle)` on strings. -/
def strIncludes (hay needle : String) : Bool :=
  containsSub needle.data hay.data

/-- The search predicate of the query engine (part_000 lines 155-159):
the item's name, sku or category contains the search term, all compared
lowercased. -/
def matchesSearch (searchTerm : String) (item : InventoryItem) : Bool :=
  strIncludes (toLowerStr item.name) (toLowerStr searchTerm) ||
  strIncludes (toLowerStr item.sku) (toLowerStr searchTerm) ||
  strIncludes (toLowerStr item.category) (toLowerStr searchTerm)

/-- The query engine `filteredAndSortedItems` (part_000 lines 150-185):
filter by search term when non-empty, then by exact category match when
non-empty, then sort with the comparator when a sort key is set. -/
def filteredAndSortedItems (inventoryItems : List InventoryItem)
    (searchTerm selectedCategory : String) (sortConfig : SortConfig) :
    List InventoryItem :=
  let items1 :=
    if searchTerm = "" then inventoryItems
    else inventoryItems.filter (matchesSearch searchTerm)
  let items2 :=
    if selectedCategory = "" then items1
    else items1.filter (fun item => item.category == selectedCategory)
  match sortConfig.key with
  | none => items2
  | some key => items2.mergeSort (itemLE key sortConfig.direction)

/-- The paginator `paginatedItems` (part_000 lines 187-190):
`slice(startIndex, startIndex + itemsPerPage)` with
`startIndex = (currentPage - 1) * itemsPerPage`, for a 1-indexed page. -/
def paginatedItems (filteredAndSorted : List InventoryItem)
    (currentPage itemsPerPage : ℕ) : List InventoryItem :=
  (filteredAndSorted.drop ((currentPage - 1) * itemsPerPage)).take itemsPerPage

/-- The add branch of `handleItemFormSubmit` (part_000 lines 106-113),
exposed at the core boundary as `createItem`: mint an id from the current
time in milliseconds (`Date.now().toString()`), stamp `lastUpdated` with
the current time (`new Date().toISOString()`, passed as `nowIso`), and
prepend the new item. -/
def createItem (nowMs : ℕ) (nowIso : String) (payload : NewInventoryItem)
    (prevItems : List InventoryItem) : List InventoryItem :=
  { id := toString nowMs
    name := payload.name
    quantity := payload.quantity
    price := payload.price
    category := payload.category
    sku := payload.sku
    lastUpdated := nowIso } :: prevItems

/-- The edit branch of `handleItemFormSubmit` (part_000 lines 98-105),
exposed as `updateItem`: map over the collection, replacing each item whose
id matches with the input fields and a refreshed `lastUpdated`. -/
def updateItem (nowIso : String) (itemData : InventoryItem)
    (prevItems : List InventoryItem) : List InventoryItem :=
  prevItems.map fun item =>
    if item.id = itemData.id then { itemData with lastUpdated := nowIso }
    else item

/-- The body of `confirmDeleteItem` (part_000 lines 124-130), exposed as
`deleteItem`: keep every item whose id differs from the deleted id. -/
def deleteItem (idToDelete : String) (prevItems : List InventoryItem) :
    List InventoryItem :=
  prevItems.filter fun item => decide ¬(item.id = idToDelete)

/-- The fixed low-stock threshold (part_000 line 25). -/
def LOW_STOCK_THRESHOLD : ℚ := 10

/-- Dashboard aggregate `totalItemsInStock` (part_000 line 208): reduce of
`quantity` over the full collection. -/
def totalItemsInStock (inventoryItems : List InventoryItem) : ℚ :=
  inventoryItems.foldl (fun sum item => sum + item.quantity) 0

/-- Dashboard aggregate `uniqueProductSKUs` (part_000 line 209): the row
count of the full collection, with no deduplication of sku strings. -/
def uniqueProductSKUs (inventoryItems : List InventoryItem) : ℕ :=
  inventoryItems.length

/-- Dashboard aggregate `lowStockItemsCount` (part_000 line 211): the
number of items with `quantity <= LOW_STOCK_THRESHOLD`. -/
def lowStockItemsCount (inventoryItems : List InventoryItem) : ℕ :=
  (inventoryItems.filter fun item =>
    decide (item.quantity ≤ LOW_STOCK_THRESHOLD)).length

/-- Rounding of a rational to the nearest integer, ties to even — the
rounding used by IEEE-754 arithmetic. -/
def roundNearestTiesEven (q : ℚ) : ℤ :=
  let f := ⌊q⌋
  let r := q - (f : ℚ)
  if r < 1 / 2 then f
  else if 1 / 2 < r then f + 1
  else if 2 ∣ f then f else f + 1

/-- Fuel-based binary logarithm on naturals (`natLog2F fuel n` computes
`Nat.log 2 n` whenever `n ≤ fuel`); structural recursion on the fuel keeps
it kernel-reducible. -/
def natLog2F : ℕ → ℕ → ℕ
  | 0, _ => 0
  | fuel + 1, n => if 2 ≤ n then natLog2F fuel (n / 2) + 1 else 0

/-- Fuel-based binary ceiling logarithm on naturals (`natClog2F fuel n`
computes `Nat.clog 2 n` whenever `n ≤ fuel`). -/
def natClog2F : ℕ → ℕ → ℕ
  | 0, _ => 0
  | fuel + 1, n => if n ≤ 1 then 0 else natClog2F fuel ((n + 1) / 2) + 1

/-- Floor of the binary logarithm of a positive rational (the exponent `e`
with `2 ^ e ≤ q < 2 ^ (e + 1)`); agrees with Mathlib's `Int.log 2`
(proved below) but reduces in the kernel. -/
def ratLog2Floor (q : ℚ) : ℤ :=
  if 1 ≤ q then (natLog2F ⌊q⌋.toNat ⌊q⌋.toNat : ℤ)
  else -(natClog2F ⌈q⁻¹⌉.toNat ⌈q⁻¹⌉.toNat : ℤ)

/-- Rounding of a real (rational) value to the nearest IEEE-754
double-precision number (53-bit significand, round to nearest, ties to
even), modelled for the normal range; overflow and subnormal underflow do
not occur for the currency-sized values considered here. -/
def roundDouble (q : ℚ) : ℚ :=
  if q = 0 then 0
  else
    let a : ℚ := |q|
    let e : ℤ := ratLog2Floor a
    let m : ℤ := roundNearestTiesEven (a * (2 : ℚ) ^ ((52 : ℤ) - e))
    let mag : ℚ := (m : ℚ) * (2 : ℚ) ^ (e - (52 : ℤ))
    if q < 0 then -mag else mag

/-- Dashboard aggregate `totalInventoryValue` (part_000 line 210): the
JavaScript reduce `sum + item.quantity * item.price` over the full
collection, with each multiplication and each addition performed in
IEEE-754 double precision (this is what the JavaScript `*` and `+`
operators compute). -/
def totalInventoryValue (inventoryItems : List InventoryItem) : ℚ :=
  inventoryItems.foldl
    (fun sum item => roundDouble (sum + roundDouble (item.quantity * item.price)))
    0

/-- Specification-side definition: the decimal-safe (exact, drift-free)
total inventory value the specification describes — the exact sum of
`quantity * price` over all items. -/
def totalInventoryValueSpec (inventoryItems : List InventoryItem) : ℚ :=
  (inventoryItems.map fun item => item.quantity * item.price).sum

/-- The seed collection `initialItems` (part_000 lines 15-23). The
`lastUpdated` strings are produced at load time from the current clock;
`iso` abstracts `(ms : ℕ) ↦ new Date(ms).toISOString()` and `now` is
`Date.now()` at module evaluation. -/
def initialItems (iso : ℕ → String) (now : ℕ) : List InventoryItem :=
  [ { id := "1", name := "Laptop Pro 15\"", quantity := 5, price := 1200,
      category := "Electronics", sku := "LP15-001",
      lastUpdated := iso (now - 86400000 * 2) },
    { id := "2", name := "Wireless Mouse", quantity := 150, price := 25.99,
      category := "Accessories", sku := "WM-002",
      lastUpdated := iso (now - 86400000) },
    { id := "3", name := "Mechanical Keyboard", quantity := 8, price := 79.50,
      category := "Accessories", sku := "MK-003",
      lastUpdated := iso now },
    { id := "4", name := "Office Chair Ergonomic", quantity := 30, price := 250,
      category := "Furniture", sku := "OC-004",
      lastUpdated := iso (now - 86400000 * 5) },
    { id := "5", name := "27\" 4K Monitor", quantity := 15, price := 350,
      category := "Electronics", sku := "MON27-4K",
      lastUpdated := iso (now - 86400000 * 1) },
    { id := "6", name := "USB-C Hub", quantity := 60, price := 35,
      category := "Accessories", sku := "USBC-HUB-01",
      lastUpdated := iso (now - 86400000 * 3) },
    { id := "7", name := "Standing Desk", quantity := 12, price := 450,
      category := "Furniture", sku := "STD-DSK-001",
      lastUpdated := iso (now - 86400000 * 10) } ]

/-- Textual serialization of the full collection, modelling
`JSON.stringify(inventoryItems)` as the value written under the
`inventoryItems` storage key. -/
def serializeItems (inventoryItems : List InventoryItem) : String :=
  String.intercalate ";" (inventoryItems.map fun item =>
    item.id ++ "," ++ item.name ++ "," ++ toString item.quantity ++ "," ++
    toString item.price ++ "," ++ item.category ++ "," ++ item.sku ++ "," ++
    item.lastUpdated)

/-- The application state relevant to persistence: the in-memory
collection, the `isLoading` flag, and the persistent store's value under
the `inventoryItems` key (`none` when the key is absent). -/
structure AppState where
  inventoryItems : List InventoryItem
  isLoading : Bool
  store : Option String
deriving DecidableEq

/-- The events that change the collection or the loading flag: completion
of the one-shot startup load (carrying the collection parsed from the
store, or the seed when absent or unparseable, per part_000 lines 48-62),
and the three mutations. -/
inductive AppEvent where
  | loadComplete (loaded : List InventoryItem)
  | submitCreate (nowMs : ℕ) (nowIso : String) (payload : NewInventoryItem)
  | submitEdit (nowIso : String) (itemData : InventoryItem)
  | deleteConfirmed (idToDelete : String)

/-- The save effect (part_000 lines 74-79): after every render in which
`inventoryItems` or `isLoading` changed, write the serialized collection to
the store — unless `isLoading` is still true. -/
def saveItemsEffect (s : AppState) : AppState :=
  if s.isLoading then s
  else { s with store := some (serializeItems s.inventoryItems) }

/-- One step of the application: apply the event's state update, then run
the save effect (its dependencies `[inventoryItems, isLoading]` change on
every such event, so it runs after each one). -/
def step (s : AppState) : AppEvent → AppState
  | .loadComplete loaded =>
      saveItemsEffect { s with inventoryItems := loaded, isLoading := false }
  | .submitCreate nowMs nowIso payload =>
      saveItemsEffect
        { s with inventoryItems := createItem nowMs nowIso payload s.inventoryItems }
  | .submitEdit nowIso itemData =>
      saveItemsEffect
        { s with inventoryItems := updateItem nowIso itemData s.inventoryItems }
  | .deleteConfirmed idToDelete =>
      saveItemsEffect
        { s with inventoryItems := deleteItem idToDelete s.inventoryItems }

/-- The state at mount (part_000 lines 28-29): empty collection, loading in
progress, and whatever the store already holds. The save effect's first run
happens here with `isLoading = true`, so it does not write. -/
def initialAppState (store0 : Option String) : AppState :=
  { inventoryItems := [], isLoading := true, store := store0 }

/-- Specification-side definition: the step-1 predicate of the query contract —
keep an item when the search term is empty or its name, sku or category
contains the term case-insensitively. -/
def searchKeep (searchTerm : String) (item : InventoryItem) : Bool :=
  searchTerm == "" || matchesSearch searchTerm item

/-- Specification-side definition: the step-2 predicate of the query contract —
keep an item when no category filter is set or its category is exactly the
selected one. -/
def categoryKeep (selectedCategory : String) (item : InventoryItem) : Bool :=
  selectedCategory == "" || item.category == selectedCategory

/-- Specification-side definition: the step-3 sorting stage of the query contract,
applied after both filters. -/
def sortStep (sortConfig : SortConfig) (l : List InventoryItem) :
    List InventoryItem :=
  match sortConfig.key with
  | none => l
  | some key => l.mergeSort (itemLE key sortConfig.direction)

/-- Sample item used to instantiate the universally quantified theorems. -/
def sampleA : InventoryItem :=
  { id := "a", name := "Alpha", quantity := 1, price := 5,
    category := "X", sku := "SA", lastUpdated := "t1" }

/-- Sample item with the same quantity as `sampleA` but a later position. -/
def sampleB : InventoryItem :=
  { id := "b", name := "Beta", quantity := 1, price := 7,
    category := "X", sku := "SB", lastUpdated := "t2" }

/-- Sample item with a smaller quantity than `sampleA` and `sampleB`. -/
def sampleC : InventoryItem :=
  { id := "c", name := "Gamma", quantity := 0, price := 9,
    category := "Y", sku := "SC", lastUpdated := "t3" }

/-- Sample existing item whose id collides with `Date.now() = 42`. -/
def oldItem : InventoryItem :=
  { id := "42", name := "Old Gadget", quantity := 4, price := 10,
    category := "X", sku := "SKU-OLD", lastUpdated := "t0" }

/-- Sample creation payload. -/
def newPayload : NewInventoryItem :=
  { name := "New Gadget", quantity := 2, price := 5,
    category := "X", sku := "SKU-NEW" }

/-- Sample item whose id is absent from the sample collections. -/
def ghostItem : InventoryItem :=
  { id := "zz", name := "Ghost", quantity := 1, price := 1,
    category := "X", sku := "SG", lastUpdated := "t9" }

/-- Sample item whose price is the IEEE-754 double nearest to 0.1; its
product with the quantity 3 is not exactly representable, so the float
accumulation drifts on it. -/
def driftItem : InventoryItem :=
  { id := "d", name := "Drift", quantity := 3, price := roundDouble (1 / 10),
    category := "X", sku := "SD", lastUpdated := "t4" }

/-- Sample item whose product of quantity and price (6) is exactly
representable as a double. -/
def exactItem : InventoryItem :=
  { id := "w", name := "Widget", quantity := 2, price := 3,
    category := "X", sku := "SW", lastUpdated := "t5" }

/-- Sample edited version of `oldItem`: same id "42", all other fields
changed. -/
def editedItem : InventoryItem :=
  { id := "42", name := "Old Gadget v2", quantity := 6, price := 11,
    category := "Y", sku := "SKU-OLD2", lastUpdated := "tX" }

/-! Helper lemmas about the comparator. -/

theorem charListCmp_swap : ∀ s t : List Char, charListCmp t s = -charListCmp s t
  | [], [] => by simp [charListCmp]
  | [], _ :: _ => by simp [charListCmp]
  | _ :: _, [] => by simp [charListCmp]
  | a :: as, b :: bs => by
    simp only [charListCmp]
    rcases Nat.lt_trichotomy a.toNat b.toNat with h | h | h
    · rw [if_neg (Nat.lt_asymm h), if_pos h, if_pos h]
      norm_num
    · rw [if_neg (by omega), if_neg (by omega), if_neg (by omega),
        if_neg (by omega)]
      exact charListCmp_swap as bs
    · rw [if_pos h, if_neg (Nat.lt_asymm h), if_pos h]

theorem charListCmp_trans_le :
    ∀ a b c : List Char, charListCmp a b ≤ 0 → charListCmp b c ≤ 0 →
      charListCmp a c ≤ 0
  | [], b, c, _, _ => by cases c <;> simp [charListCmp]
  | _ :: _, [], _, h1, _ => by simp [charListCmp] at h1; norm_num at h1
  | _ :: _, _ :: _, [], _, h2 => by simp [charListCmp] at h2; norm_num at h2
  | a :: as, b :: bs, c :: cs, h1, h2 => by
    simp only [charListCmp] at h1 h2 ⊢
    rcases Nat.lt_trichotomy a.toNat b.toNat with hab | hab | hab
    · rcases Nat.lt_trichotomy b.toNat c.toNat with hbc | hbc | hbc
      · rw [if_pos (hab.trans hbc)]; norm_num
      · rw [if_pos (hbc ▸ hab)]; norm_num
      · rw [if_neg (Nat.lt_asymm hbc), if_pos hbc] at h2; norm_num at h2
    · rcases Nat.lt_trichotomy b.toNat c.toNat with hbc | hbc | hbc
      · rw [if_pos (hab ▸ hbc)]; norm_num
      · rw [if_neg (by omega), if_neg (by omega)]
        rw [if_neg (by omega), if_neg (by omega)] at h1
        rw [if_neg (by omega), if_neg (by omega)] at h2
        exact charListCmp_trans_le as bs cs h1 h2
      · rw [if_neg (Nat.lt_asymm hbc), if_pos hbc] at h2; norm_num at h2
    · rw [if_neg (Nat.lt_asymm hab), if_pos hab] at h1; norm_num at h1

theorem compareValues_swap (v w : JSValue) :
    compareValues w v = -compareValues v w := by
  cases v with
  | num a =>
    cases w with
    | num b => simp only [compareValues]; ring
    | str t => simp [compareValues]
  | str s =>
    cases w with
    | num b => simp [compareValues]
    | str t =>
      simp only [compareValues, localeCompare]
      exact charListCmp_swap _ _

theorem itemCompare_desc (key : ItemKey) (a b : InventoryItem) :
    itemCompare key .descending a b = itemCompare key .ascending b a := by
  show -(compareValues (getField a key) (getField b key)) =
    compareValues (getField b key) (getField a key)
  rw [compareValues_swap (getField b key) (getField a key)]
  exact neg_neg _

theorem itemCompare_swap (key : ItemKey) (direction : SortDirection)
    (a b : InventoryItem) :
    itemCompare key direction b a = -itemCompare key direction a b := by
  cases direction with
  | ascending =>
    show compareValues (getField b key) (getField a key) =
      -compareValues (getField a key) (getField b key)
    exact compareValues_swap _ _
  | descending =>
    show -(compareValues (getField b key) (getField a key)) =
      -(-(compareValues (getField a key) (getField b key)))
    rw [compareValues_swap]

theorem getField_shape (key : ItemKey) :
    (∀ it : InventoryItem, ∃ q, getField it key = .num q) ∨
    (∀ it : InventoryItem, ∃ s, getField it key = .str s) := by
  cases key
  case quantity => exact .inl fun it => ⟨it.quantity, rfl⟩
  case price => exact .inl fun it => ⟨it.price, rfl⟩
  all_goals exact .inr fun it => ⟨_, rfl⟩

theorem itemLE_asc_trans (key : ItemKey) (a b c : InventoryItem)
    (h1 : itemLE key .ascending a b) (h2 : itemLE key .ascending b c) :
    itemLE key .ascending a c := by
  simp only [itemLE, itemCompare, decide_eq_true_eq] at h1 h2 ⊢
  rcases getField_shape key with hnum | hstr
  · obtain ⟨qa, ha⟩ := hnum a
    obtain ⟨qb, hb⟩ := hnum b
    obtain ⟨qc, hc⟩ := hnum c
    rw [ha, hb] at h1; rw [hb, hc] at h2; rw [ha, hc]
    simp only [compareValues] at h1 h2 ⊢
    linarith
  · obtain ⟨sa, ha⟩ := hstr a
    obtain ⟨sb, hb⟩ := hstr b
    obtain ⟨sc, hc⟩ := hstr c
    rw [ha, hb] at h1; rw [hb, hc] at h2; rw [ha, hc]
    simp only [compareValues, localeCompare] at h1 h2 ⊢
    exact charListCmp_trans_le _ _ _ h1 h2

theorem itemLE_trans (key : ItemKey) (direction : SortDirection)
    (a b c : InventoryItem)
    (h1 : itemLE key direction a b) (h2 : itemLE key direction b c) :
    itemLE key direction a c := by
  cases direction
  case ascending => exact itemLE_asc_trans key a b c h1 h2
  case descending =>
    have e : ∀ x y : InventoryItem,
        itemLE key .descending x y = itemLE key .ascending y x := by
      intro x y
      rw [itemLE, itemLE, itemCompare_desc]
    rw [e] at h1 h2 ⊢
    exact itemLE_asc_trans key c b a h2 h1

theorem itemLE_total (key : ItemKey) (direction : SortDirection)
    (a b : InventoryItem) :
    itemLE key direction a b || itemLE key direction b a := by
  simp only [itemLE, Bool.or_eq_true, decide_eq_true_eq]
  rcases le_total (itemCompare key direction a b) 0 with h | h
  · exact .inl h
  · refine .inr ?_
    rw [itemCompare_swap]
    linarith

/-- C2: for every pair of items and every set sort key, the comparator
compares the two items' values at that key — by numeric subtraction when
both values are numbers, by the locale comparison when both are strings,
yielding 0 (treating the pair as equal) when the types mix — and the
descending direction is exactly the negation of the ascending comparison.
The comparator is a total function, so no input raises an error. -/
theorem comparator_behaviour (a b : InventoryItem) (key : ItemKey)
    (x y : ℚ) (s t : String) :
    itemCompare key .ascending a b =
      compareValues (getField a key) (getField b key) ∧
    itemCompare key .descending a b =
      -compareValues (getField a key) (getField b key) ∧
    compareValues (.num x) (.num y) = x - y ∧
    compareValues (.str s) (.str t) = localeCompare s t ∧
    compareValues (.num x) (.str t) = 0 ∧
    compareValues (.str s) (.num y) = 0 :=
  ⟨rfl, rfl, rfl, rfl, rfl, rfl⟩

/-- C3: the query engine's sort is stable — for any collection and sort
configuration, two items whose sort-key values compare equal keep the
relative order they had in the input. -/
theorem sort_stability (l : List InventoryItem) (sortConfig : SortConfig)
    (a b : InventoryItem)
    (hEq : ∀ key, sortConfig.key = some key →
      compareValues (getField a key) (getField b key) = 0)
    (hSub : List.Sublist [a, b] l) :
    List.Sublist [a, b] (filteredAndSortedItems l "" "" sortConfig) := by
  obtain ⟨key?, direction⟩ := sortConfig
  cases key? with
  | none => simpa [filteredAndSortedItems] using hSub
  | some key =>
    have h0 := hEq key rfl
    have hab : itemLE key direction a b := by
      cases direction <;>
        simp [itemLE, itemCompare, h0]
    simpa [filteredAndSortedItems] using
      List.pair_sublist_mergeSort
        (fun x y z hxy hyz => itemLE_trans key direction x y z hxy hyz)
        (fun x y => itemLE_total key direction x y)
        hab hSub

/-- Witness for C3 at a concrete input: `sampleA` and `sampleB` have equal
quantities, and sorting `[sampleA, sampleB, sampleC]` by quantity keeps
`sampleA` before `sampleB`. -/
theorem sort_stability_witness :
    List.Sublist [sampleA, sampleB]
      (filteredAndSortedItems [sampleA, sampleB, sampleC] "" ""
        ⟨some .quantity, .ascending⟩) :=
  sort_stability [sampleA, sampleB, sampleC] ⟨some .quantity, .ascending⟩
    sampleA sampleB
    (fun key hk => by
      cases hk
      with_unfolding_all decide)
    (by with_unfolding_all decide)

/-- C1: the query engine coincides with the specification's pipeline —
filter by the search predicate (case-insensitive substring of name, sku or
category, skipped for the empty term), conjoined with the exact category
filter (skipped for the empty category), and only then sort; consequently
an item is kept exactly when it is in the collection, matches the search
term (or the term is empty), and has exactly the selected category (or no
category is selected). -/
theorem query_pipeline (items : List InventoryItem)
    (searchTerm selectedCategory : String) (sortConfig : SortConfig) :
    filteredAndSortedItems items searchTerm selectedCategory sortConfig =
      sortStep sortConfig (items.filter fun item =>
        searchKeep searchTerm item && categoryKeep selectedCategory item) ∧
    ∀ x : InventoryItem,
      x ∈ filteredAndSortedItems items searchTerm selectedCategory sortConfig ↔
        x ∈ items ∧ (searchTerm = "" ∨ matchesSearch searchTerm x = true) ∧
          (selectedCategory = "" ∨ x.category = selectedCategory) := by
  obtain ⟨key?, direction⟩ := sortConfig
  have hfilter :
      (if selectedCategory = "" then
        if searchTerm = "" then items
        else items.filter (matchesSearch searchTerm)
      else
        (if searchTerm = "" then items
         else items.filter (matchesSearch searchTerm)).filter
          (fun item => item.category == selectedCategory)) =
      items.filter (fun item =>
        searchKeep searchTerm item && categoryKeep selectedCategory item) := by
    by_cases hs : searchTerm = ""
    · by_cases hc : selectedCategory = ""
      · subst hs; subst hc
        simp [searchKeep, categoryKeep]
      · subst hs
        have hc' : (selectedCategory == "") = false := beq_eq_false_iff_ne.mpr hc
        simp [searchKeep, categoryKeep, hc, hc']
    · have hs' : (searchTerm == "") = false := beq_eq_false_iff_ne.mpr hs
      by_cases hc : selectedCategory = ""
      · subst hc
        simp [searchKeep, categoryKeep, hs, hs']
      · have hc' : (selectedCategory == "") = false := beq_eq_false_iff_ne.mpr hc
        rw [if_neg hc, if_neg hs, List.filter_filter]
        apply List.filter_congr
        intro a _
        simp [searchKeep, categoryKeep, hs', hc', Bool.and_comm]
  cases key? with
  | none =>
    constructor
    · simp only [filteredAndSortedItems, sortStep]
      exact hfilter
    · intro x
      simp only [filteredAndSortedItems]
      rw [hfilter, List.mem_filter]
      simp only [searchKeep, categoryKeep, Bool.and_eq_true, Bool.or_eq_true,
        beq_iff_eq]
  | some key =>
    constructor
    · simp only [filteredAndSortedItems, sortStep]
      rw [hfilter]
    · intro x
      simp only [filteredAndSortedItems]
      rw [hfilter, List.mem_mergeSort, List.mem_filter]
      simp only [searchKeep, categoryKeep, Bool.and_eq_true, Bool.or_eq_true,
        beq_iff_eq]

/-- C4: for a 1-indexed page, the paginator returns exactly the items in
the index range `[(page-1)*pageSize, page*pageSize)` clipped to the
available length; when `page * pageSize ≥ length` the result's length is
`max 0 (length - (page-1)*pageSize)`; a page beyond the available pages
yields the empty list — never a negative length, an error, or
wraparound. -/
theorem paginate_spec (items : List InventoryItem) (page pageSize : ℕ)
    (hpage : 1 ≤ page) :
    ((paginatedItems items page pageSize).length =
        min pageSize (items.length - (page - 1) * pageSize)) ∧
    (∀ i : ℕ, i < pageSize →
      (paginatedItems items page pageSize)[i]? =
        items[(page - 1) * pageSize + i]?) ∧
    (items.length ≤ page * pageSize →
      ((paginatedItems items page pageSize).length : ℤ) =
        max 0 ((items.length : ℤ) - ((page : ℤ) - 1) * (pageSize : ℤ))) ∧
    (items.length ≤ (page - 1) * pageSize →
      paginatedItems items page pageSize = []) := by
  obtain ⟨p, rfl⟩ : ∃ p, page = p + 1 := ⟨page - 1, by omega⟩
  refine ⟨?_, ?_, ?_, ?_⟩
  · simp [paginatedItems, List.length_take, List.length_drop]
  · intro i hi
    simp only [paginatedItems]
    rw [List.getElem?_take_of_lt hi, List.getElem?_drop]
  · intro h
    have hlen : (paginatedItems items (p + 1) pageSize).length =
        min pageSize (items.length - p * pageSize) := by
      simp [paginatedItems, List.length_take, List.length_drop]
    rw [hlen]
    have hps : (p + 1) * pageSize = p * pageSize + pageSize := by ring
    rw [hps] at h
    have e : (((p + 1 : ℕ) : ℤ) - 1) * (pageSize : ℤ) =
        ((p * pageSize : ℕ) : ℤ) := by push_cast; ring
    rw [e]
    omega
  · intro h
    simp only [Nat.add_sub_cancel] at h
    simp only [paginatedItems, Nat.add_sub_cancel]
    rw [List.drop_eq_nil_of_le h, List.take_nil]

/-- Witness for C4 at a concrete input: page 2 of size 2 over a 3-item
collection is the one-element last page. -/
theorem paginate_spec_witness :
    1 ≤ 2 ∧
    (((paginatedItems [sampleA, sampleB, sampleC] 2 2).length =
        min 2 ([sampleA, sampleB, sampleC].length - (2 - 1) * 2)) ∧
    (∀ i : ℕ, i < 2 →
      (paginatedItems [sampleA, sampleB, sampleC] 2 2)[i]? =
        [sampleA, sampleB, sampleC][(2 - 1) * 2 + i]?) ∧
    ([sampleA, sampleB, sampleC].length ≤ 2 * 2 →
      ((paginatedItems [sampleA, sampleB, sampleC] 2 2).length : ℤ) =
        max 0 (([sampleA, sampleB, sampleC].length : ℤ) -
          ((2 : ℤ) - 1) * (2 : ℤ))) ∧
    ([sampleA, sampleB, sampleC].length ≤ (2 - 1) * 2 →
      paginatedItems [sampleA, sampleB, sampleC] 2 2 = [])) :=
  ⟨by norm_num, paginate_spec [sampleA, sampleB, sampleC] 2 2 (by norm_num)⟩

/-- C5 counterexample: the minted id is `Date.now().toString()` with no
collision check, so when the collection already holds an item with that id
(for example the result of another `createItem` call in the same
millisecond), the new item's id equals an existing item's id. Here
`Date.now() = 42` and the collection holds `oldItem` whose id is "42". -/
theorem createItem_id_collision :
    (createItem 42 "t6" newPayload [oldItem]).head?.map InventoryItem.id =
      some oldItem.id := by
  with_unfolding_all decide

/-- C5 amended: `createItem` prepends a new item whose id is the decimal
string of the call-time milliseconds and whose `lastUpdated` is the call
time, all other fields taken from the payload, leaving the existing items
unchanged; the new id differs from every existing id provided no existing
item already carries the id derived from the same millisecond. -/
theorem createItem_spec (nowMs : ℕ) (nowIso : String)
    (payload : NewInventoryItem) (items : List InventoryItem)
    (hfresh : toString nowMs ∉ items.map InventoryItem.id) :
    (createItem nowMs nowIso payload items).tail = items ∧
    ∀ newIt, (createItem nowMs nowIso payload items).head? = some newIt →
      newIt.id ∉ items.map InventoryItem.id ∧
      newIt.lastUpdated = nowIso ∧
      newIt.name = payload.name ∧
      newIt.quantity = payload.quantity ∧
      newIt.price = payload.price ∧
      newIt.category = payload.category ∧
      newIt.sku = payload.sku := by
  refine ⟨rfl, ?_⟩
  intro newIt h
  have : newIt = ⟨toString nowMs, payload.name, payload.quantity,
      payload.price, payload.category, payload.sku, nowIso⟩ := by
    simpa [createItem] using h.symm
  subst this
  exact ⟨hfresh, rfl, rfl, rfl, rfl, rfl, rfl⟩

/-- Witness for C5 at a concrete input: creating at time 100 over a
collection whose only id is "42". -/
theorem createItem_spec_witness :
    toString (100 : ℕ) ∉ [oldItem].map InventoryItem.id ∧
    ((createItem 100 "t7" newPayload [oldItem]).tail = [oldItem] ∧
    ∀ newIt, (createItem 100 "t7" newPayload [oldItem]).head? = some newIt →
      newIt.id ∉ [oldItem].map InventoryItem.id ∧
      newIt.lastUpdated = "t7" ∧
      newIt.name = newPayload.name ∧
      newIt.quantity = newPayload.quantity ∧
      newIt.price = newPayload.price ∧
      newIt.category = newPayload.category ∧
      newIt.sku = newPayload.sku) :=
  ⟨by with_unfolding_all decide,
    createItem_spec 100 "t7" newPayload [oldItem]
      (by with_unfolding_all decide)⟩

theorem foldl_add_map (f : InventoryItem → ℚ) :
    ∀ (l : List InventoryItem) (a : ℚ),
      l.foldl (fun sum item => sum + f item) a = a + (l.map f).sum
  | [], a => by simp
  | x :: xs, a => by
    simp only [List.foldl_cons, List.map_cons, List.sum_cons]
    rw [foldl_add_map f xs (a + f x)]
    ring

/-- C6: the dashboard aggregates are computed over the full, unfiltered
collection — total quantity is the sum of `quantity` over all items, the
unique-SKU count is the plain row count (no deduplication), and the
low-stock count is the number of items with `quantity ≤ 10`; on the seed
collection, whose quantities are `[5,150,8,30,15,60,12]`, the total
quantity is 280 and the low-stock count is 2. -/
theorem dashboard_aggregates (items : List InventoryItem)
    (iso : ℕ → String) (now : ℕ) :
    totalItemsInStock items = (items.map InventoryItem.quantity).sum ∧
    uniqueProductSKUs items = items.length ∧
    lowStockItemsCount items =
      (items.filter fun item => decide (item.quantity ≤ 10)).length ∧
    totalItemsInStock (initialItems iso now) = 280 ∧
    lowStockItemsCount (initialItems iso now) = 2 := by
  refine ⟨?_, rfl, rfl, ?_, ?_⟩
  · rw [totalItemsInStock, foldl_add_map]
    ring
  · simp only [totalItemsInStock, initialItems, List.foldl_cons,
      List.foldl_nil]
    norm_num
  · simp only [lowStockItemsCount, LOW_STOCK_THRESHOLD, initialItems,
      List.filter_cons, List.filter_nil, decide_eq_true_eq]
    norm_num

set_option maxRecDepth 100000 in
/-- C7 counterexample: the reduce on part_000 line 210 runs in IEEE-754
double precision, not in a decimal-safe representation — for a single item
of quantity 3 and price `double(0.1)` the accumulated total differs from
the exact sum of `quantity * price` (the well-known `3 * 0.1 ≠ 0.3` float
drift). -/
theorem totalInventoryValue_drifts :
    totalInventoryValue [driftItem] ≠ totalInventoryValueSpec [driftItem] := by
  with_unfolding_all decide

theorem floatFold_exact :
    ∀ (l : List InventoryItem) (acc : ℚ),
      (∀ it ∈ l,
        roundDouble (it.quantity * it.price) = it.quantity * it.price) →
      (∀ n : ℕ, roundDouble (acc + totalInventoryValueSpec (l.take n)) =
          acc + totalInventoryValueSpec (l.take n)) →
      l.foldl (fun sum item =>
          roundDouble (sum + roundDouble (item.quantity * item.price))) acc =
        acc + totalInventoryValueSpec l
  | [], acc, _, _ => by simp [totalInventoryValueSpec]
  | x :: xs, acc, hp, hs => by
    simp only [List.foldl_cons]
    rw [hp x (List.mem_cons_self x xs)]
    have h1 : roundDouble (acc + x.quantity * x.price) =
        acc + x.quantity * x.price := by
      have := hs 1
      simpa [totalInventoryValueSpec] using this
    rw [h1]
    rw [floatFold_exact xs (acc + x.quantity * x.price)
      (fun it h => hp it (List.mem_cons_of_mem x h))
      (fun n => by
        have hsn := hs (n + 1)
        simp only [List.take_succ_cons, totalInventoryValueSpec,
          List.map_cons, List.sum_cons] at hsn
        simp only [totalInventoryValueSpec]
        have e : acc + x.quantity * x.price +
            ((xs.take n).map fun item => item.quantity * item.price).sum =
            acc + (x.quantity * x.price +
              ((xs.take n).map fun item => item.quantity * item.price).sum) := by
          ring
        rw [e, hsn])]
    simp only [totalInventoryValueSpec, List.map_cons, List.sum_cons]
    ring

/-- C7 amended: the total inventory value is the sum of
`quantity * price` over the full collection accumulated in IEEE-754 double
precision (each product and each running sum rounded to the nearest
double), with rounding to 2 decimal places applied only at render time; it
equals the exact decimal sum precisely under the additional assumption
that every product and every partial sum is exactly representable, and can
drift otherwise. -/
theorem totalInventoryValue_float (items : List InventoryItem)
    (hprod : ∀ it ∈ items,
      roundDouble (it.quantity * it.price) = it.quantity * it.price)
    (hsums : ∀ n : ℕ,
      roundDouble (totalInventoryValueSpec (items.take n)) =
        totalInventoryValueSpec (items.take n)) :
    totalInventoryValue items = totalInventoryValueSpec items := by
  have h := floatFold_exact items 0 hprod (fun n => by
    have := hsums n
    simpa using this)
  simpa [totalInventoryValue] using h

set_option maxRecDepth 100000 in
/-- Witness for C7 at a concrete input: an item of quantity 2 and price 3,
whose product 6 and partial sums are exactly representable doubles. -/
theorem totalInventoryValue_float_witness :
    (∀ it ∈ [exactItem],
      roundDouble (it.quantity * it.price) = it.quantity * it.price) ∧
    (∀ n : ℕ, roundDouble (totalInventoryValueSpec ([exactItem].take n)) =
        totalInventoryValueSpec ([exactItem].take n)) ∧
    totalInventoryValue [exactItem] = totalInventoryValueSpec [exactItem] := by
  have hp : ∀ it ∈ [exactItem],
      roundDouble (it.quantity * it.price) = it.quantity * it.price := by
    intro it h
    simp only [List.mem_singleton] at h
    subst h
    with_unfolding_all decide
  have hs : ∀ n : ℕ,
      roundDouble (totalInventoryValueSpec ([exactItem].take n)) =
        totalInventoryValueSpec ([exactItem].take n) := by
    intro n
    cases n with
    | zero => with_unfolding_all decide
    | succ m =>
      simp only [List.take_succ_cons, List.take_nil]
      with_unfolding_all decide
  exact ⟨hp, hs, totalInventoryValue_float [exactItem] hp hs⟩

/-- C8: operations on an id absent from the collection are silent no-ops —
`updateItem` and `deleteItem` leave the collection unchanged (and, being
total functions, never throw) — and deleting the same id twice leaves the
collection after the second call equal to the collection after the
first. -/
theorem missing_id_noop (items : List InventoryItem) (nowIso : String)
    (input : InventoryItem) (idToDelete : String) :
    (input.id ∉ items.map InventoryItem.id →
      updateItem nowIso input items = items) ∧
    (idToDelete ∉ items.map InventoryItem.id →
      deleteItem idToDelete items = items) ∧
    deleteItem idToDelete (deleteItem idToDelete items) =
      deleteItem idToDelete items := by
  refine ⟨?_, ?_, ?_⟩
  · intro h
    have hfix : ∀ a ∈ items,
        (if a.id = input.id then { input with lastUpdated := nowIso }
         else a) = a := by
      intro a ha
      rw [if_neg]
      intro hEq
      exact h (hEq ▸ List.mem_map_of_mem InventoryItem.id ha)
    show items.map _ = items
    rw [List.map_congr_left hfix, List.map_id']
  · intro h
    simp only [deleteItem]
    rw [List.filter_eq_self]
    intro a ha
    rw [decide_eq_true_eq]
    intro hEq
    exact h (hEq ▸ List.mem_map_of_mem InventoryItem.id ha)
  · simp only [deleteItem]
    rw [List.filter_filter]
    apply List.filter_congr
    intro a _
    exact Bool.and_self _

/-- Witness for C8 at a concrete input: `ghostItem`'s id "zz" is absent
from the one-item collection `[oldItem]`, so update and delete are no-ops,
and double deletion of "zz" equals single deletion. -/
theorem missing_id_noop_witness :
    (ghostItem.id ∉ [oldItem].map InventoryItem.id) ∧
    updateItem "t8" ghostItem [oldItem] = [oldItem] ∧
    deleteItem "zz" [oldItem] = [oldItem] ∧
    deleteItem "zz" (deleteItem "zz" [oldItem]) = deleteItem "zz" [oldItem] :=
  ⟨by with_unfolding_all decide,
   (missing_id_noop [oldItem] "t8" ghostItem "zz").1
     (by with_unfolding_all decide),
   (missing_id_noop [oldItem] "t8" ghostItem "zz").2.1
     (by with_unfolding_all decide),
   (missing_id_noop [oldItem] "t8" ghostItem "zz").2.2⟩

/-- C9: for an id present in the collection, `updateItem` replaces exactly
the items with the matching id, taking every non-id field verbatim from
the input except `lastUpdated`, which is refreshed to the call time; every
item with a different id is unchanged, the collection's length is
unchanged, and a subsequent unfiltered query (empty search and category,
no sort key) returns the updated collection as is. -/
theorem updateItem_spec (items : List InventoryItem) (nowIso : String)
    (input : InventoryItem) (direction : SortDirection) :
    (updateItem nowIso input items).length = items.length ∧
    (∀ i : ℕ, ∀ it, items[i]? = some it → it.id ≠ input.id →
      (updateItem nowIso input items)[i]? = some it) ∧
    (∀ i : ℕ, ∀ it, items[i]? = some it → it.id = input.id →
      (updateItem nowIso input items)[i]? =
        some { input with lastUpdated := nowIso }) ∧
    (input.id ∈ items.map InventoryItem.id →
      { input with lastUpdated := nowIso } ∈ updateItem nowIso input items) ∧
    filteredAndSortedItems (updateItem nowIso input items) "" ""
      ⟨none, direction⟩ = updateItem nowIso input items := by
  refine ⟨?_, ?_, ?_, ?_, ?_⟩
  · simp [updateItem]
  · intro i it hi hne
    simp [updateItem, List.getElem?_map, hi, if_neg hne]
  · intro i it hi heq
    simp [updateItem, List.getElem?_map, hi, if_pos heq]
  · intro h
    obtain ⟨it, hit, hid⟩ := List.mem_map.mp h
    have hval : (fun item =>
        if item.id = input.id then { input with lastUpdated := nowIso }
        else item) it = { input with lastUpdated := nowIso } := if_pos hid
    exact hval ▸ List.mem_map_of_mem _ hit
  · simp [filteredAndSortedItems]

/-- Witness for C9 at a concrete input: editing the item with id "42" in
the one-item collection `[oldItem]`. -/
theorem updateItem_spec_witness :
    (updateItem "t10" editedItem [oldItem]).length = [oldItem].length ∧
    (∀ i : ℕ, ∀ it, [oldItem][i]? = some it → it.id ≠ editedItem.id →
      (updateItem "t10" editedItem [oldItem])[i]? = some it) ∧
    (∀ i : ℕ, ∀ it, [oldItem][i]? = some it → it.id = editedItem.id →
      (updateItem "t10" editedItem [oldItem])[i]? =
        some { editedItem with lastUpdated := "t10" }) ∧
    (editedItem.id ∈ [oldItem].map InventoryItem.id →
      { editedItem with lastUpdated := "t10" } ∈
        updateItem "t10" editedItem [oldItem]) ∧
    filteredAndSortedItems (updateItem "t10" editedItem [oldItem]) "" ""
      ⟨none, .ascending⟩ = updateItem "t10" editedItem [oldItem] :=
  updateItem_spec [oldItem] "t10" editedItem .ascending

/-- C10 counterexample: the persistence effect also writes after the
initial load completes, with no mutation having occurred — starting from
the mount state with an absent store key, the load-completion event alone
writes the serialized (empty) collection to the store. -/
theorem persistence_write_on_load :
    (initialAppState none).store = none ∧
    (step (initialAppState none) (.loadComplete [])).store =
      some (serializeItems []) :=
  ⟨rfl, rfl⟩

/-- C10 amended: once loading has completed, every mutating operation
(add, update, remove) immediately serializes the full collection and
writes it to the store under the inventory key, with no batching or
debouncing; in addition, the store is written once when the initial load
completes (the loading guard only suppresses the write that would occur at
mount, while `isLoading` is still true). -/
theorem persistence_after_each_mutation (s : AppState) (nowMs : ℕ)
    (nowIso : String) (payload : NewInventoryItem) (input : InventoryItem)
    (idToDelete : String) (loaded : List InventoryItem)
    (store0 : Option String)
    (hdone : s.isLoading = false) :
    (step s (.submitCreate nowMs nowIso payload)).store =
      some (serializeItems (createItem nowMs nowIso payload s.inventoryItems)) ∧
    (step s (.submitEdit nowIso input)).store =
      some (serializeItems (updateItem nowIso input s.inventoryItems)) ∧
    (step s (.deleteConfirmed idToDelete)).store =
      some (serializeItems (deleteItem idToDelete s.inventoryItems)) ∧
    (step s (.loadComplete loaded)).store = some (serializeItems loaded) ∧
    (initialAppState store0).store = store0 := by
  refine ⟨?_, ?_, ?_, ?_, rfl⟩ <;>
    simp [step, saveItemsEffect, hdone]

/-- Witness for C10 at a concrete input: a loaded one-item state, a create
at time 7, an edit, a delete, and a load completion. -/
theorem persistence_after_each_mutation_witness :
    ((⟨[oldItem], false, none⟩ : AppState).isLoading = false) ∧
    ((step ⟨[oldItem], false, none⟩ (.submitCreate 7 "t11" newPayload)).store =
      some (serializeItems (createItem 7 "t11" newPayload [oldItem])) ∧
    (step ⟨[oldItem], false, none⟩ (.submitEdit "t11" editedItem)).store =
      some (serializeItems (updateItem "t11" editedItem [oldItem])) ∧
    (step ⟨[oldItem], false, none⟩ (.deleteConfirmed "42")).store =
      some (serializeItems (deleteItem "42" [oldItem])) ∧
    (step ⟨[oldItem], false, none⟩ (.loadComplete [ghostItem])).store =
      some (serializeItems [ghostItem]) ∧
    (initialAppState (some "prev")).store = some "prev") :=
  ⟨rfl, persistence_after_each_mutation ⟨[oldItem], false, none⟩ 7 "t11"
    newPayload editedItem "42" [ghostItem] (some "prev") rfl⟩

end Inventory
